import Mathlib

/-!
Verification of the travel-itinerary worker (`src/main.js`).

The development shallowly embeds the source's components:

* the Firestore typed-value codec (`toValue` / `fromValue`,
  `toFirestoreFields` / `fromFirestoreFields`);
* the bounded retry-with-backoff wrapper (`retryWithBackoff`);
* the JWT assembly performed by `getFirestoreAccessToken` (header, claim
  set, base64url encoding via `btoa` plus character replacement and
  padding strip);
* the job orchestration of the worker `fetch` handler: the POST branch
  (validation-free creation, synchronous initial persistence, background
  terminal patch reusing the handler's token) and the GET /status branch.

JavaScript numbers are modelled as rationals (`Rat`): every numeric
literal the worker handles is a decimal, and `typeof` does not
distinguish integers from floats.  JavaScript values that the codec
rejects (`undefined`, functions, symbols, bigints) are explicit
constructors so the error branch of `toValue` is faithful to the
`typeof` dispatch in the source.
-/

namespace ItinGen

/-! ### JavaScript values (codec domain) -/

mutual

/-- JavaScript values as seen by `toValue`: the six encodable categories
plus the `typeof` categories the source rejects. -/
inductive JSVal where
  | null
  | str (s : String)
  | num (q : Rat)
  | bool (b : Bool)
  | arr (elems : JSList)
  | obj (fields : JSFields)
  | undef
  | func
  | symbol
  | bigint (i : Int)

/-- Ordered list of JavaScript values (a JS array). -/
inductive JSList where
  | nil
  | cons (hd : JSVal) (tl : JSList)

/-- String-keyed fields of a JS object, in insertion order
(`Object.entries` order). -/
inductive JSFields where
  | nil
  | cons (key : String) (val : JSVal) (tl : JSFields)

end

/-! ### Firestore tagged wire values -/

mutual

/-- Firestore tagged wire value, one constructor per tag the source
emits (`nullValue`, `stringValue`, `integerValue`, `booleanValue`,
`arrayValue`, `mapValue`). -/
inductive FireVal where
  | nullValue
  | stringValue (s : String)
  | integerValue (q : Rat)
  | booleanValue (b : Bool)
  | arrayValue (values : FireList)
  | mapValue (fields : FireFields)

/-- List of Firestore wire values (`arrayValue.values`). -/
inductive FireList where
  | nil
  | cons (hd : FireVal) (tl : FireList)

/-- Fields of a Firestore `mapValue`, in order. -/
inductive FireFields where
  | nil
  | cons (key : String) (val : FireVal) (tl : FireFields)

end

/-- JavaScript `typeof` on the modelled values (`typeof null` is
`"object"`, arrays are `"object"`). -/
def jsTypeof : JSVal → String
  | .null => "object"
  | .str _ => "string"
  | .num _ => "number"
  | .bool _ => "boolean"
  | .arr _ => "object"
  | .obj _ => "object"
  | .undef => "undefined"
  | .func => "function"
  | .symbol => "symbol"
  | .bigint _ => "bigint"

mutual

/-- Embedding of `toValue` (src/main.js:263-275): the chain of guards
`val === null`, `typeof val === 'string'`, `typeof val === 'number'`,
`typeof val === 'boolean'`, `Array.isArray(val)`,
`typeof val === 'object'`; anything else throws
`"Unsupported Firestore value: " + typeof val`. -/
def toValue : JSVal → Except String FireVal
  | .null => Except.ok FireVal.nullValue
  | .str s => Except.ok (FireVal.stringValue s)
  | .num q => Except.ok (FireVal.integerValue q)
  | .bool b => Except.ok (FireVal.booleanValue b)
  | .arr l =>
      match toValueList l with
      | Except.ok vs => Except.ok (FireVal.arrayValue vs)
      | Except.error e => Except.error e
  | .obj f =>
      match toFirestoreFields f with
      | Except.ok fs => Except.ok (FireVal.mapValue fs)
      | Except.error e => Except.error e
  | v => Except.error ("Unsupported Firestore value: " ++ jsTypeof v)

/-- Embedding of `val.map(toValue)` inside the `arrayValue` branch;
an exception from any element propagates. -/
def toValueList : JSList → Except String FireList
  | .nil => Except.ok FireList.nil
  | .cons v tl =>
      match toValue v with
      | Except.error e => Except.error e
      | Except.ok w =>
          match toValueList tl with
          | Except.error e => Except.error e
          | Except.ok ws => Except.ok (FireList.cons w ws)

/-- Embedding of `toFirestoreFields` (src/main.js:254-260): encode each
entry of the object in order. -/
def toFirestoreFields : JSFields → Except String FireFields
  | .nil => Except.ok FireFields.nil
  | .cons k v tl =>
      match toValue v with
      | Except.error e => Except.error e
      | Except.ok w =>
          match toFirestoreFields tl with
          | Except.error e => Except.error e
          | Except.ok ws => Except.ok (FireFields.cons k w ws)

end

/-- JavaScript `parseInt` applied to the decimal rendering of a finite
decimal number truncates toward zero; on the rationals the source
stores in `integerValue` this is `Int.tdiv` of numerator by
denominator. -/
def jsParseInt (q : Rat) : Int :=
  Int.tdiv q.num (q.den : Int)

mutual

/-- Embedding of `fromValue` (src/main.js:287-295): dispatch on the tag
present; `integerValue` goes through `parseInt`. -/
def fromValue : FireVal → JSVal
  | .nullValue => JSVal.null
  | .stringValue s => JSVal.str s
  | .integerValue q => JSVal.num ((jsParseInt q : Int) : Rat)
  | .booleanValue b => JSVal.bool b
  | .arrayValue vs => JSVal.arr (fromValueList vs)
  | .mapValue fs => JSVal.obj (fromFirestoreFields fs)

/-- Embedding of `(val.arrayValue.values || []).map(fromValue)`. -/
def fromValueList : FireList → JSList
  | .nil => JSList.nil
  | .cons v tl => JSList.cons (fromValue v) (fromValueList tl)

/-- Embedding of `fromFirestoreFields` (src/main.js:278-284). -/
def fromFirestoreFields : FireFields → JSFields
  | .nil => JSFields.nil
  | .cons k v tl => JSFields.cons k (fromValue v) (fromFirestoreFields tl)

end

mutual

/-- Values in the round-trip domain of the spec: strings, integers
(numbers with denominator 1), booleans, null, lists and string-keyed
maps of such values. -/
def isPure : JSVal → Bool
  | .null => true
  | .str _ => true
  | .num q => q.den == 1
  | .bool _ => true
  | .arr l => isPureList l
  | .obj f => isPureFields f
  | _ => false

/-- Every element of the list is in the round-trip domain. -/
def isPureList : JSList → Bool
  | .nil => true
  | .cons v tl => isPure v && isPureList tl

/-- Every field value is in the round-trip domain. -/
def isPureFields : JSFields → Bool
  | .nil => true
  | .cons _ v tl => isPure v && isPureFields tl

end

/-- Kinds of values the claim lists as encodable: null, string, number,
boolean, list, string-keyed map. -/
def jsSupported : JSVal → Bool
  | .null => true
  | .str _ => true
  | .num _ => true
  | .bool _ => true
  | .arr _ => true
  | .obj _ => true
  | _ => false

/-! ### Retry with exponential backoff -/

/-- Result of the retry wrapper: the success value, the rethrown final
error, or JavaScript `undefined` when the loop body never runs. -/
inductive RetryOutcome (ε α : Type) where
  | ok (a : α)
  | err (e : ε)
  | undef
deriving DecidableEq

/-- Loop of `retryWithBackoff` (src/main.js:91-101).  `i` is the current
attempt index and the recursion argument counts the iterations still to
run (`retries - i`).  The operation `fn` is given the attempt index so a
different outcome per call can be expressed.  Returns the outcome, the
number of times `fn` was invoked, and the list of backoff waits
(`delay * 2 ^ i` after each failed non-final attempt). -/
def retryGo (fn : Nat → Except ε α) (delay i rem : Nat) :
    RetryOutcome ε α × Nat × List Nat :=
  if _h : rem = 0 then (RetryOutcome.undef, 0, [])
  else
    match fn i with
    | Except.ok a => (RetryOutcome.ok a, 1, [])
    | Except.error e =>
        if rem = 1 then (RetryOutcome.err e, 1, [])
        else
          let r := retryGo fn delay (i + 1) (rem - 1)
          (r.1, r.2.1 + 1, delay * 2 ^ i :: r.2.2)
termination_by rem
decreasing_by omega

/-- Embedding of `retryWithBackoff(fn, retries, delay)`
(src/main.js:91-101).  The `for (let i = 0; i < retries; i++)` loop runs
`max retries 0` iterations, so a non-positive `retries` returns
`undefined` without calling `fn`. -/
def retryWithBackoff (fn : Nat → Except ε α) (retries : Int) (delay : Nat) :
    RetryOutcome ε α × Nat × List Nat :=
  retryGo fn delay 0 retries.toNat

/-! ### JWT assembly (`getFirestoreAccessToken`, src/main.js:151-183) -/

/-- Base64 alphabet used by `btoa`, in index order. -/
def base64Alphabet : List Char :=
  "ABCDEFGHIJKLMNOPQRSTUVWXYZabcdefghijklmnopqrstuvwxyz0123456789+/".data

/-- Indexing with a default character (indices stay below 64 in use, so
the default is never reached). -/
def listGetD : List Char → Nat → Char
  | [], _ => 'A'
  | c :: _, 0 => c
  | _ :: tl, n + 1 => listGetD tl n

/-- Character of the base64 alphabet at a sextet index. -/
def alphaChar (n : Nat) : Char :=
  listGetD base64Alphabet n

/-- Embedding of `btoa` on a byte list: standard base64, 3 bytes to 4
characters, with `=` padding on a short final chunk. -/
def btoaChunks : List Nat → List Char
  | [] => []
  | [b1] => [alphaChar (b1 / 4), alphaChar (b1 % 4 * 16), '=', '=']
  | [b1, b2] =>
      [alphaChar (b1 / 4), alphaChar (b1 % 4 * 16 + b2 / 16),
       alphaChar (b2 % 16 * 4), '=']
  | b1 :: b2 :: b3 :: rest =>
      alphaChar (b1 / 4) :: alphaChar (b1 % 4 * 16 + b2 / 16) ::
      alphaChar (b2 % 16 * 4 + b3 / 64) :: alphaChar (b3 % 64) :: btoaChunks rest

/-- The two character replacements of `toBase64Url`
(src/main.js:162-164): `+` to `-` and `/` to `_`. -/
def urlSafe (c : Char) : Char :=
  if c = '+' then '-' else if c = '/' then '_' else c

/-- The `replace(/=+$/, '')` step: strip every trailing `=`. -/
def stripTrailingEq (cs : List Char) : List Char :=
  (cs.reverse.dropWhile (fun c => c == '=')).reverse

/-- Base64url pipeline on bytes: base64, URL-safe replacements, strip
trailing padding. -/
def toBase64UrlChars (bs : List Nat) : List Char :=
  stripTrailingEq ((btoaChunks bs).map urlSafe)

/-- Embedding of `toBase64Url` (src/main.js:162-164):
`btoa(JSON.stringify(obj))` over the string's character codes followed
by the URL-safe replacements and padding strip.  The JSON rendering is
supplied by the caller. -/
def toBase64Url (s : String) : String :=
  String.mk (toBase64UrlChars (s.data.map Char.toNat))

/-- Embedding of `arrayBufferToBase64Url` (src/main.js:246-251): same
pipeline applied to the signature bytes. -/
def arrayBufferToBase64Url (bytes : List Nat) : String :=
  String.mk (toBase64UrlChars bytes)

/-- Shape of the JWT header object (src/main.js:153). -/
structure JwtHeader where
  alg : String
  typ : String

/-- The header literal `\x7b alg: 'RS256', typ: 'JWT' \x7d`. -/
def header : JwtHeader :=
  { alg := "RS256", typ := "JWT" }

/-- Shape of the JWT claim set (src/main.js:154-160). -/
structure ClaimSet where
  iss : String
  scope : String
  aud : String
  exp : Int
  iat : Int

/-- The claim-set literal of src/main.js:154-160: issuer from
`env.CLIENT_EMAIL`, datastore scope, token-endpoint audience, expiry one
hour after `iat`, issued-at `now`. -/
def claimSet (clientEmail : String) (now : Int) : ClaimSet :=
  { iss := clientEmail
    scope := "https://www.googleapis.com/auth/datastore"
    aud := "https://oauth2.googleapis.com/token"
    exp := now + 3600
    iat := now }

/-- Model of `JSON.stringify` on the header object (keys in insertion
order, no spaces). -/
def stringifyHeader (h : JwtHeader) : String :=
  "\x7b\"alg\":\"" ++ h.alg ++ "\",\"typ\":\"" ++ h.typ ++ "\"\x7d"

/-- Model of `JSON.stringify` on the claim set (keys in insertion
order: iss, scope, aud, exp, iat). -/
def stringifyClaims (c : ClaimSet) : String :=
  "\x7b\"iss\":\"" ++ c.iss ++ "\",\"scope\":\"" ++ c.scope ++ "\",\"aud\":\"" ++ c.aud
    ++ "\",\"exp\":" ++ toString c.exp ++ ",\"iat\":" ++ toString c.iat ++ "\x7d"

/-- The `unsignedJWT` local (src/main.js:165): base64url header, a dot,
base64url claims. -/
def unsignedJWT (clientEmail : String) (now : Int) : String :=
  toBase64Url (stringifyHeader header) ++ "." ++
    toBase64Url (stringifyClaims (claimSet clientEmail now))

/-- The `signedJWT` local (src/main.js:183): the unsigned token, a dot,
and the base64url signature bytes (the RSA signature itself is opaque
input). -/
def signedJWT (clientEmail : String) (now : Int) (signature : List Nat) : String :=
  unsignedJWT clientEmail now ++ "." ++ arrayBufferToBase64Url signature

/-! ### Job orchestration (worker `fetch` handler, src/main.js:26-88) -/

/-- Activity entry of an itinerary day (ActivitySchema,
src/main.js:7-11). -/
structure Activity where
  time : String
  description : String
  location : String
deriving DecidableEq

/-- One day of an itinerary (DaySchema, src/main.js:14-18). -/
structure Day where
  day : Int
  theme : String
  activities : List Activity
deriving DecidableEq

/-- The job document stored in Firestore (the `doc` literal of
src/main.js:46-54 and the fields later patched).  JavaScript `null` is
`Option.none`. -/
structure JobRecord where
  destination : String
  durationDays : Rat
  status : String
  createdAt : String
  completedAt : Option String
  itinerary : List Day
  error : Option String
deriving DecidableEq

/-- The initial document persisted by the POST branch
(src/main.js:46-54): status processing, empty itinerary, null error and
completedAt. -/
def initialDoc (destination : String) (durationDays : Rat) (createdAt : String) :
    JobRecord :=
  { destination := destination
    durationDays := durationDays
    status := "processing"
    createdAt := createdAt
    completedAt := none
    itinerary := []
    error := none }

/-- The external document store keyed by job id. -/
def Store : Type := String → Option JobRecord

/-- Store with no documents. -/
def emptyStore : Store := fun _ => none

/-- Writing a document at an id. -/
def storeInsert (st : Store) (k : String) (v : JobRecord) : Store :=
  fun k2 => if k2 = k then some v else st k2

/-- Kind of a store interaction: the create POST, the terminal PATCH,
the status GET. -/
inductive StoreOpKind where
  | create
  | patch
  | get
deriving DecidableEq

/-- Observable effects relevant to token freshness: a token mint (the
token-exchange of `getFirestoreAccessToken`) and a store interaction
carrying the bearer token it sends. -/
inductive Event where
  | mint (tok : Nat)
  | storeOp (kind : StoreOpKind) (tok : Nat)
deriving DecidableEq

/-- Embedding of `getFirestoreAccessToken` at the orchestration level
(src/main.js:151-198): mints a fresh token from the supply, no caching.
Returns the token, the next supply value, and the mint event. -/
def getFirestoreAccessToken (supply : Nat) : Nat × Nat × List Event :=
  (supply, supply + 1, [Event.mint supply])

/-- Embedding of `saveToFirestore` (src/main.js:200-210): POST of the
full document under the job id with the given bearer token; the
response is not inspected. -/
def saveToFirestore (jobId : String) (doc : JobRecord) (tok : Nat) (st : Store) :
    Store × List Event :=
  (storeInsert st jobId doc, [Event.storeOp StoreOpKind.create tok])

/-- The two partial updates `generateItineraryAndUpdate` sends: the
success patch masks exactly itinerary, status, completedAt; the failure
patch masks exactly status, error, completedAt (src/main.js:76-86). -/
inductive Patch where
  | completedPatch (itinerary : List Day) (completedAt : String)
  | failedPatch (errMsg : String) (completedAt : String)
deriving DecidableEq

/-- Applying a patch to a stored record: only the masked fields change. -/
def applyPatch : Patch → JobRecord → JobRecord
  | Patch.completedPatch it t, j =>
      { j with itinerary := it, status := "completed", completedAt := some t }
  | Patch.failedPatch msg t, j =>
      { j with status := "failed", error := some msg, completedAt := some t }

/-- Embedding of `updateFirestore` (src/main.js:212-223): PATCH with the
write mask of the update's keys.  `transportOk` is whether the network
call succeeds; on transport failure nothing is applied and the awaited
promise rejects (the returned flag). -/
def updateFirestore (jobId : String) (p : Patch) (tok : Nat) (transportOk : Bool)
    (st : Store) : Store × List Event × Bool :=
  (if transportOk then
      match st jobId with
      | some j => storeInsert st jobId (applyPatch p j)
      | none => st
    else st,
   [Event.storeOp StoreOpKind.patch tok], transportOk)

/-- Embedding of `generateItineraryAndUpdate` (src/main.js:66-88).
`gen` is the combined outcome of the retried LLM call plus Zod
validation (Except.error carries the thrown message).  On success the
completed patch is attempted; if its transport fails the catch block
attempts the failed patch with the transport error message.  On a
generation error the failed patch is attempted with that message.  The
token is the one received from the caller — no fresh mint.  Returns the
final store, the events, and the store snapshots after each awaited
write. -/
def generateItineraryAndUpdate (jobId : String) (tok : Nat)
    (gen : Except String (List Day)) (tc tf netMsg : String) (cOk fOk : Bool)
    (st : Store) : Store × List Event × List Store :=
  match gen with
  | Except.ok it =>
      let r1 := updateFirestore jobId (Patch.completedPatch it tc) tok cOk st
      if r1.2.2 then (r1.1, r1.2.1, [r1.1])
      else
        let r2 := updateFirestore jobId (Patch.failedPatch netMsg tf) tok fOk r1.1
        (r2.1, r1.2.1 ++ r2.2.1, [r1.1, r2.1])
  | Except.error msg =>
      let r2 := updateFirestore jobId (Patch.failedPatch msg tf) tok fOk st
      (r2.1, r2.2.1, [r2.1])

/-- HTTP responses the handler builds via `jsonResponse`. -/
inductive Resp where
  | jsonJobId (jobId : String) (status : Nat)
  | jsonDoc (doc : JobRecord) (status : Nat)
deriving DecidableEq

/-- Result of the synchronous part of the POST branch
(src/main.js:40-60): the 202 response, the store after the awaited
create, the events so far, the arguments captured by the scheduled
background task (note `token` is passed along), and the token supply. -/
structure PostOut where
  resp : Resp
  store : Store
  events : List Event
  bgJobId : String
  bgTok : Nat
  supply : Nat

/-- Embedding of the POST branch of the worker `fetch` handler
(src/main.js:40-60): build the initial document, mint a token, await the
create, schedule the background task with the same token, return 202
with the job id.  `jobId` and `createdAt` stand for
`crypto.randomUUID()` and `new Date().toISOString()`.  No validation of
`destination` or `durationDays` occurs. -/
def handlePost (destination : String) (durationDays : Rat) (jobId createdAt : String)
    (supply : Nat) (st : Store) : PostOut :=
  let doc := initialDoc destination durationDays createdAt
  let m := getFirestoreAccessToken supply
  let sv := saveToFirestore jobId doc m.1 st
  { resp := Resp.jsonJobId jobId 202
    store := sv.1
    events := m.2.2 ++ sv.2
    bgJobId := jobId
    bgTok := m.1
    supply := m.2.1 }

/-- The whole POST flow: the synchronous handler followed by the
background task `ctx.waitUntil` runs.  Returns the final store, the full
event list, and the store snapshots (after the create, then after each
background write). -/
def postFlow (destination : String) (durationDays : Rat) (jobId createdAt : String)
    (supply : Nat) (st : Store) (gen : Except String (List Day))
    (tc tf netMsg : String) (cOk fOk : Bool) : Store × List Event × List Store :=
  let out := handlePost destination durationDays jobId createdAt supply st
  let bg := generateItineraryAndUpdate out.bgJobId out.bgTok gen tc tf netMsg cOk fOk
    out.store
  (bg.1, out.events ++ bg.2.1, out.store :: bg.2.2)

/-- The successive values the stored record of the job takes during the
POST flow. -/
def postFlowStates (destination : String) (durationDays : Rat)
    (jobId createdAt : String) (supply : Nat) (st : Store)
    (gen : Except String (List Day)) (tc tf netMsg : String) (cOk fOk : Bool) :
    List (Option JobRecord) :=
  ((postFlow destination durationDays jobId createdAt supply st gen tc tf netMsg
    cOk fOk).2.2).map (fun s => s jobId)

/-- Embedding of `getFirestoreDocument` (src/main.js:225-235): GET of
the document; a non-success response (no record) throws
`"Document not found"`, otherwise the decoded fields are returned. -/
def getFirestoreDocument (jobId : String) (tok : Nat) (st : Store) :
    Except String JobRecord × List Event :=
  match st jobId with
  | none => (Except.error "Document not found", [Event.storeOp StoreOpKind.get tok])
  | some j => (Except.ok j, [Event.storeOp StoreOpKind.get tok])

/-- Embedding of the GET /status branch (src/main.js:32-37): mint a
token, read the document, return it as a 200 JSON response.  There is no
try/catch, so a throw from `getFirestoreDocument` propagates out of the
handler uncaught (the `Except.error` result). -/
def handleStatus (jobId : String) (supply : Nat) (st : Store) :
    Except String Resp × Nat × List Event :=
  let m := getFirestoreAccessToken supply
  let g := getFirestoreDocument jobId m.1 st
  match g.1 with
  | Except.error msg => (Except.error msg, m.2.1, m.2.2 ++ g.2)
  | Except.ok j => (Except.ok (Resp.jsonDoc j 200), m.2.1, m.2.2 ++ g.2)

/-- Bearer tokens sent with store interactions, in order. -/
def storeTokens (evs : List Event) : List Nat :=
  evs.filterMap (fun e =>
    match e with
    | Event.storeOp _ t => some t
    | _ => none)

/-- Tokens minted, in order. -/
def mintTokens (evs : List Event) : List Nat :=
  evs.filterMap (fun e =>
    match e with
    | Event.mint t => some t
    | _ => none)

/-- Concrete sample value for evaluating the codec round-trip: a map
holding a heterogeneous list and a negative integer. -/
def sampleVal : JSVal :=
  JSVal.obj
    (JSFields.cons "a"
      (JSVal.arr
        (JSList.cons (JSVal.num 3)
          (JSList.cons (JSVal.str "x")
            (JSList.cons (JSVal.bool true)
              (JSList.cons JSVal.null JSList.nil)))))
      (JSFields.cons "b" (JSVal.num (-7)) JSFields.nil))

theorem jsParseInt_intCast (n : Int) : jsParseInt (n : Rat) = n := by
  simp [jsParseInt, Rat.den_intCast, Rat.num_intCast]

theorem num_cast_of_den_eq_one {q : Rat} (h : q.den = 1) : ((q.num : Int) : Rat) = q := by
  exact_mod_cast (Rat.den_eq_one_iff q).mp h

mutual

theorem roundtripVal : ∀ v : JSVal, isPure v = true →
    Except.map fromValue (toValue v) = Except.ok v
  | .null, _ => rfl
  | .str s, _ => rfl
  | .num q, h => by
      have hden : q.den = 1 := by simpa [isPure] using h
      have hq : ((q.num : Int) : Rat) = q := num_cast_of_den_eq_one hden
      have hp : jsParseInt q = q.num := by
        simp [jsParseInt, hden]
      simp [toValue, Except.map, fromValue, hp, hq]
  | .bool b, _ => rfl
  | .arr l, h => by
      have hl : isPureList l = true := by simpa [isPure] using h
      have ih := roundtripList l hl
      cases htl : toValueList l with
      | error e => rw [htl] at ih; simp [Except.map] at ih
      | ok vs =>
          rw [htl] at ih
          simp [Except.map] at ih
          simp [toValue, htl, Except.map, fromValue, ih]
  | .obj f, h => by
      have hf : isPureFields f = true := by simpa [isPure] using h
      have ih := roundtripFields f hf
      cases htf : toFirestoreFields f with
      | error e => rw [htf] at ih; simp [Except.map] at ih
      | ok fs =>
          rw [htf] at ih
          simp [Except.map] at ih
          simp [toValue, htf, Except.map, fromValue, ih]
  | .undef, h => by simp [isPure] at h
  | .func, h => by simp [isPure] at h
  | .symbol, h => by simp [isPure] at h
  | .bigint i, h => by simp [isPure] at h

theorem roundtripList : ∀ l : JSList, isPureList l = true →
    Except.map fromValueList (toValueList l) = Except.ok l
  | .nil, _ => rfl
  | .cons v tl, h => by
      have hv : isPure v = true := by
        have := h; simp [isPureList, Bool.and_eq_true] at this; exact this.1
      have htl : isPureList tl = true := by
        have := h; simp [isPureList, Bool.and_eq_true] at this; exact this.2
      have ihv := roundtripVal v hv
      have ihl := roundtripList tl htl
      cases hv1 : toValue v with
      | error e => rw [hv1] at ihv; simp [Except.map] at ihv
      | ok w =>
          rw [hv1] at ihv
          simp [Except.map] at ihv
          cases hl1 : toValueList tl with
          | error e => rw [hl1] at ihl; simp [Except.map] at ihl
          | ok ws =>
              rw [hl1] at ihl
              simp [Except.map] at ihl
              simp [toValueList, hv1, hl1, Except.map, fromValueList, ihv, ihl]

theorem roundtripFields : ∀ f : JSFields, isPureFields f = true →
    Except.map fromFirestoreFields (toFirestoreFields f) = Except.ok f
  | .nil, _ => rfl
  | .cons k v tl, h => by
      have hv : isPure v = true := by
        have := h; simp [isPureFields, Bool.and_eq_true] at this; exact this.1
      have htl : isPureFields tl = true := by
        have := h; simp [isPureFields, Bool.and_eq_true] at this; exact this.2
      have ihv := roundtripVal v hv
      have ihf := roundtripFields tl htl
      cases hv1 : toValue v with
      | error e => rw [hv1] at ihv; simp [Except.map] at ihv
      | ok w =>
          rw [hv1] at ihv
          simp [Except.map] at ihv
          cases hf1 : toFirestoreFields tl with
          | error e => rw [hf1] at ihf; simp [Except.map] at ihf
          | ok ws =>
              rw [hf1] at ihf
              simp [Except.map] at ihf
              simp [toFirestoreFields, hv1, hf1, Except.map, fromFirestoreFields, ihv, ihf]

end

/-- C2: for every value composed only of strings, integers, booleans,
null, lists of such values and string-keyed maps of such values,
decoding the encoding returns the value: `fromValue` applied to the
result of `toValue` gives back `v`. -/
theorem claim_c2_decode_encode_roundtrip (v : JSVal) (h : isPure v = true) :
    Except.map fromValue (toValue v) = Except.ok v :=
  roundtripVal v h

/-- Witness for C2 at a concrete nested value. -/
theorem claim_c2_witness :
    isPure sampleVal = true ∧
      Except.map fromValue (toValue sampleVal) = Except.ok sampleVal :=
  ⟨by decide, claim_c2_decode_encode_roundtrip sampleVal (by decide)⟩

/-- C7: `toValue` fails with an encoding error on every value that is
not null, a string, a number, a boolean, a list, or a string-keyed map
(in the source these are `undefined`, functions, symbols and bigints,
which fall through every `typeof` guard). -/
theorem claim_c7_encode_unsupported (v : JSVal) (h : jsSupported v = false) :
    toValue v = Except.error ("Unsupported Firestore value: " ++ jsTypeof v) := by
  cases v <;> first | rfl | simp [jsSupported] at h

/-- Witness for C7 at the concrete value `undefined`. -/
theorem claim_c7_witness :
    jsSupported JSVal.undef = false ∧
      toValue JSVal.undef
        = Except.error ("Unsupported Firestore value: " ++ jsTypeof JSVal.undef) :=
  ⟨rfl, claim_c7_encode_unsupported JSVal.undef rfl⟩

theorem retryGo_calls_pos {ε α : Type} (fn : Nat → Except ε α) (delay i rem : Nat)
    (h : rem ≠ 0) : 1 ≤ (retryGo fn delay i rem).2.1 := by
  unfold retryGo
  simp [h]
  cases fn i with
  | ok a => simp
  | error e =>
      by_cases h1 : rem = 1
      · simp [h1]
      · simp [h1]

/-- C5: with attempts = 3, base delay = 1000 and multiplier 2, an
operation failing on the first two calls and succeeding on the third is
called exactly 3 times with waits 1000 then 2000 and its success value
is returned; an operation failing on every call is called exactly 3
times, waits 1000 then 2000, and the final error is rethrown. -/
theorem claim_c5_retry_backoff {ε α : Type} (fn fn2 : Nat → Except ε α)
    (e0 e1 : ε) (a : α) (es : Nat → ε)
    (h0 : fn 0 = Except.error e0) (h1 : fn 1 = Except.error e1)
    (h2 : fn 2 = Except.ok a) (hall : ∀ i, fn2 i = Except.error (es i)) :
    retryWithBackoff fn 3 1000 = (RetryOutcome.ok a, 3, [1000, 2000]) ∧
      retryWithBackoff fn2 3 1000 = (RetryOutcome.err (es 2), 3, [1000, 2000]) := by
  constructor
  · simp [retryWithBackoff]
    rw [retryGo]
    simp [h0]
    rw [retryGo]
    simp [h1]
    rw [retryGo]
    simp [h2]
  · simp [retryWithBackoff]
    rw [retryGo]
    simp [hall]
    rw [retryGo]
    simp [hall]
    rw [retryGo]
    simp [hall]

/-- Operation that fails on attempts 0 and 1 and succeeds on attempt 2. -/
def fnSucceedsThird : Nat → Except Nat Nat :=
  fun i => if i < 2 then Except.error i else Except.ok 42

/-- Operation that fails on every attempt with its index as the error. -/
def fnAlwaysFails : Nat → Except Nat Nat :=
  fun i => Except.error i

/-- Witness for C5 at concrete operations. -/
theorem claim_c5_witness :
    retryWithBackoff fnSucceedsThird 3 1000 = (RetryOutcome.ok 42, 3, [1000, 2000]) ∧
      retryWithBackoff fnAlwaysFails 3 1000 = (RetryOutcome.err 2, 3, [1000, 2000]) :=
  claim_c5_retry_backoff fnSucceedsThird fnAlwaysFails 0 1 42 (fun i => i)
    rfl rfl rfl (fun _ => rfl)

/-- C10: a non-positive retry count makes `retryWithBackoff` return
`undefined` with zero invocations of the operation and no throw; the
operation is invoked at least once exactly when the retry count is
positive. -/
theorem claim_c10_retry_nonpositive {ε α : Type} (fn : Nat → Except ε α)
    (retries : Int) (delay : Nat) :
    (retries ≤ 0 → retryWithBackoff fn retries delay = (RetryOutcome.undef, 0, [])) ∧
      (0 < retries → 1 ≤ (retryWithBackoff fn retries delay).2.1) := by
  constructor
  · intro h
    have hz : retries.toNat = 0 := by omega
    simp [retryWithBackoff, hz]
    rw [retryGo]
    simp
  · intro h
    have hz : retries.toNat ≠ 0 := by omega
    exact retryGo_calls_pos fn delay 0 retries.toNat hz

/-- Witness for C10 at retry counts -1 and 2. -/
theorem claim_c10_witness :
    retryWithBackoff fnAlwaysFails (-1) 1000 = (RetryOutcome.undef, 0, []) ∧
      1 ≤ (retryWithBackoff fnAlwaysFails 2 1000).2.1 :=
  ⟨(claim_c10_retry_nonpositive fnAlwaysFails (-1) 1000).1 (by decide),
   (claim_c10_retry_nonpositive fnAlwaysFails 2 1000).2 (by decide)⟩

theorem listGetD_ne : ∀ (l : List Char) (n : Nat), (∀ c ∈ l, c ≠ '=') →
    listGetD l n ≠ '='
  | [], _, _ => by simp [listGetD]
  | c :: _, 0, h => by simpa [listGetD] using h c (by simp)
  | _ :: tl, n + 1, h => listGetD_ne tl n (fun x hx => h x (by simp [hx]))

theorem alphaChar_ne (n : Nat) : alphaChar n ≠ '=' :=
  listGetD_ne base64Alphabet n (by decide)

theorem btoaChunks_split : ∀ bs : List Nat, ∃ core pad,
    btoaChunks bs = core ++ pad ∧ (∀ c ∈ core, c ≠ '=') ∧ (∀ c ∈ pad, c = '=')
  | [] => ⟨[], [], rfl, by simp, by simp⟩
  | [b1] => by
      refine ⟨[alphaChar (b1 / 4), alphaChar (b1 % 4 * 16)], ['=', '='], rfl, ?_, ?_⟩
      · intro c hc
        simp only [List.mem_cons, List.not_mem_nil, or_false] at hc
        rcases hc with h | h <;> (subst h; exact alphaChar_ne _)
      · intro c hc
        simp only [List.mem_cons, List.not_mem_nil, or_false] at hc
        rcases hc with h | h <;> (subst h; rfl)
  | [b1, b2] => by
      refine ⟨[alphaChar (b1 / 4), alphaChar (b1 % 4 * 16 + b2 / 16),
        alphaChar (b2 % 16 * 4)], ['='], rfl, ?_, ?_⟩
      · intro c hc
        simp only [List.mem_cons, List.not_mem_nil, or_false] at hc
        rcases hc with h | h | h <;> (subst h; exact alphaChar_ne _)
      · intro c hc
        simp only [List.mem_cons, List.not_mem_nil, or_false] at hc
        subst hc
        rfl
  | b1 :: b2 :: b3 :: rest => by
      obtain ⟨core, pad, heq, hcore, hpad⟩ := btoaChunks_split rest
      refine ⟨alphaChar (b1 / 4) :: alphaChar (b1 % 4 * 16 + b2 / 16) ::
        alphaChar (b2 % 16 * 4 + b3 / 64) :: alphaChar (b3 % 64) :: core, pad,
        by simp [btoaChunks, heq], ?_, hpad⟩
      intro c hc
      simp only [List.mem_cons] at hc
      rcases hc with h | h | h | h | h
      · subst h; exact alphaChar_ne _
      · subst h; exact alphaChar_ne _
      · subst h; exact alphaChar_ne _
      · subst h; exact alphaChar_ne _
      · exact hcore c h

theorem urlSafe_ne (c : Char) (h : c ≠ '=') : urlSafe c ≠ '=' := by
  unfold urlSafe
  split_ifs with h1 h2
  · decide
  · decide
  · exact h

theorem dropWhile_append_all {p : Char → Bool} :
    ∀ (l₁ l₂ : List Char), (∀ c ∈ l₁, p c = true) →
      List.dropWhile p (l₁ ++ l₂) = List.dropWhile p l₂
  | [], _, _ => rfl
  | c :: tl, l₂, h => by
      have hc : p c = true := h c (by simp)
      simp only [List.cons_append, List.dropWhile, hc]
      exact dropWhile_append_all tl l₂ (fun x hx => h x (by simp [hx]))

theorem dropWhile_all_false {p : Char → Bool} :
    ∀ l : List Char, (∀ c ∈ l, p c = false) → List.dropWhile p l = l
  | [], _ => rfl
  | c :: _, h => by
      simp only [List.dropWhile, h c (by simp)]

theorem toBase64UrlChars_no_pad (bs : List Nat) :
    ∀ c ∈ toBase64UrlChars bs, c ≠ '=' := by
  obtain ⟨core, pad, heq, hcore, hpad⟩ := btoaChunks_split bs
  intro c hcmem
  unfold toBase64UrlChars stripTrailingEq at hcmem
  rw [heq, List.map_append] at hcmem
  have hpadmap : pad.map urlSafe = pad := by
    have h1 : ∀ x ∈ pad, urlSafe x = x := by
      intro x hx
      rw [hpad x hx]
      decide
    calc pad.map urlSafe = pad.map id := List.map_congr_left h1
    _ = pad := List.map_id pad
  rw [hpadmap, List.reverse_append] at hcmem
  rw [dropWhile_append_all pad.reverse (core.map urlSafe).reverse
    (by
      intro x hx
      rw [List.mem_reverse] at hx
      simp [hpad x hx])] at hcmem
  rw [dropWhile_all_false (core.map urlSafe).reverse
    (by
      intro x hx
      rw [List.mem_reverse, List.mem_map] at hx
      obtain ⟨y, hy, rfl⟩ := hx
      simpa using urlSafe_ne y (hcore y hy))] at hcmem
  rw [List.reverse_reverse, List.mem_map] at hcmem
  obtain ⟨y, hy, rfl⟩ := hcmem
  exact urlSafe_ne y (hcore y hy)

theorem handlePost_store_lookup (destination : String) (durationDays : Rat)
    (jobId createdAt : String) (supply : Nat) (st : Store) :
    (handlePost destination durationDays jobId createdAt supply st).store jobId
      = some (initialDoc destination durationDays createdAt) := by
  simp [handlePost, saveToFirestore, getFirestoreAccessToken, storeInsert]

/-- C4: the initial record (status processing, empty itinerary, null
error and completedAt) is persisted synchronously: the store returned by
the POST branch — before the background task runs — already holds it,
and a status read against that store succeeds with 200 and that record,
never with not-found. -/
theorem claim_c4_create_persisted_before_return (destination : String)
    (durationDays : Rat) (jobId createdAt : String) (supply : Nat) (st : Store) :
    (handlePost destination durationDays jobId createdAt supply st).store jobId
        = some (initialDoc destination durationDays createdAt)
      ∧ (handleStatus jobId
            (handlePost destination durationDays jobId createdAt supply st).supply
            (handlePost destination durationDays jobId createdAt supply st).store).1
          = Except.ok (Resp.jsonDoc (initialDoc destination durationDays createdAt) 200) := by
  have hlook := handlePost_store_lookup destination durationDays jobId createdAt supply st
  refine ⟨hlook, ?_⟩
  simp [handleStatus, getFirestoreDocument, getFirestoreAccessToken, hlook]

/-- C1 counterexample: at destination "" and durationDays 0 the POST
branch does not fail with a validation error: it persists the initial
document and returns 202 with the job id, so the claimed rejection
before any I/O does not happen. -/
theorem claim_c1_counterexample :
    (handlePost "" 0 "job-1" "2024-01-01T00:00:00.000Z" 0 emptyStore).resp
        = Resp.jsonJobId "job-1" 202
      ∧ (handlePost "" 0 "job-1" "2024-01-01T00:00:00.000Z" 0 emptyStore).store "job-1"
          = some (initialDoc "" 0 "2024-01-01T00:00:00.000Z") :=
  ⟨rfl, handlePost_store_lookup "" 0 "job-1" "2024-01-01T00:00:00.000Z" 0 emptyStore⟩

/-- C1 amended: the POST branch performs no validation at all — for
every destination (the empty string included) and every durationDays
(0, -1, 2.5 included, as any rational) it persists the initial document
and returns 202 with the job id; no validation error path exists. -/
theorem claim_c1_amended_no_validation (destination : String) (durationDays : Rat)
    (jobId createdAt : String) (supply : Nat) (st : Store) :
    (handlePost destination durationDays jobId createdAt supply st).resp
        = Resp.jsonJobId jobId 202
      ∧ (handlePost destination durationDays jobId createdAt supply st).store jobId
          = some (initialDoc destination durationDays createdAt) :=
  ⟨rfl, handlePost_store_lookup destination durationDays jobId createdAt supply st⟩

/-- C9: the status branch evaluated at an id with no record: the embedded
handler result is the uncaught thrown error "Document not found" — there
is no try/catch in the fetch handler's status branch, so the caller gets
a propagated exception rather than the 404 Not Found response the
documentation promises. -/
theorem claim_c9_unknown_id_uncaught_throw :
    (handleStatus "no-such-job" 0 emptyStore).1
      = Except.error "Document not found" := rfl

/-- C6 counterexample: in the POST flow (create then background terminal
patch) only one token is minted and both store interactions carry it:
the access token is reused, contradicting a fresh mint per store
interaction. -/
theorem claim_c6_counterexample :
    storeTokens (postFlow "Paris, France" 3 "job-1" "t0" 0 emptyStore
        (Except.ok []) "t1" "t2" "net" true true).2.1 = [0, 0]
      ∧ mintTokens (postFlow "Paris, France" 3 "job-1" "t0" 0 emptyStore
          (Except.ok []) "t1" "t2" "net" true true).2.1 = [0]
      ∧ ¬ (storeTokens (postFlow "Paris, France" 3 "job-1" "t0" 0 emptyStore
          (Except.ok []) "t1" "t2" "net" true true).2.1).Nodup := by
  refine ⟨rfl, rfl, ?_⟩
  have h1 : storeTokens (postFlow "Paris, France" 3 "job-1" "t0" 0 emptyStore
      (Except.ok []) "t1" "t2" "net" true true).2.1 = [0, 0] := rfl
  rw [h1]
  decide

/-- C6 amended: the GET /status branch and the POST branch each mint
exactly one fresh token, but the background terminal patch re-sends the
token minted for the create instead of minting its own: every store
interaction of the POST flow (the create and at least one patch) carries
that single token. -/
theorem claim_c6_amended_patch_reuses_create_token (destination : String)
    (durationDays : Rat) (jobId createdAt : String) (supply : Nat) (st : Store)
    (gen : Except String (List Day)) (tc tf netMsg : String) (cOk fOk : Bool)
    (supply2 : Nat) (st2 : Store) :
    mintTokens (postFlow destination durationDays jobId createdAt supply st gen
        tc tf netMsg cOk fOk).2.1 = [supply]
      ∧ (∀ t ∈ storeTokens (postFlow destination durationDays jobId createdAt supply
          st gen tc tf netMsg cOk fOk).2.1, t = supply)
      ∧ 2 ≤ (storeTokens (postFlow destination durationDays jobId createdAt supply
          st gen tc tf netMsg cOk fOk).2.1).length
      ∧ mintTokens (handleStatus jobId supply2 st2).2.2 = [supply2]
      ∧ storeTokens (handleStatus jobId supply2 st2).2.2 = [supply2] := by
  have hstat : mintTokens (handleStatus jobId supply2 st2).2.2 = [supply2]
      ∧ storeTokens (handleStatus jobId supply2 st2).2.2 = [supply2] := by
    cases hlook : st2 jobId <;>
      simp [handleStatus, getFirestoreDocument, getFirestoreAccessToken, hlook,
        mintTokens, storeTokens]
  refine ⟨?_, ?_, ?_, hstat.1, hstat.2⟩ <;>
    cases gen <;> cases cOk <;> cases fOk <;>
      simp [postFlow, handlePost, generateItineraryAndUpdate, updateFirestore,
        saveToFirestore, getFirestoreAccessToken, mintTokens, storeTokens]

/-- C3: along the successive stored states of a job in the POST flow
(initial create, then the background terminal patch attempts), the
record always exists; its itinerary is non-empty only if its status is
completed and its error is present only if its status is failed; and
every change of state goes from processing to a terminal status
(completed or failed) — no transition ever leaves a terminal state and a
terminal record is never modified. -/
theorem claim_c3_status_state_machine (destination : String) (durationDays : Rat)
    (jobId createdAt : String) (supply : Nat) (st : Store)
    (gen : Except String (List Day)) (tc tf netMsg : String) (cOk fOk : Bool) :
    (∀ r ∈ postFlowStates destination durationDays jobId createdAt supply st gen
        tc tf netMsg cOk fOk, ∃ j, r = some j
          ∧ (j.itinerary ≠ [] → j.status = "completed")
          ∧ (j.error ≠ none → j.status = "failed"))
      ∧ List.Chain' (fun a b => a = b ∨ ∃ ja jb, a = some ja ∧ b = some jb
          ∧ ja.status = "processing"
          ∧ (jb.status = "completed" ∨ jb.status = "failed"))
        (postFlowStates destination durationDays jobId createdAt supply st gen
          tc tf netMsg cOk fOk) := by
  cases gen <;> cases cOk <;> cases fOk <;>
    simp [postFlowStates, postFlow, handlePost, generateItineraryAndUpdate,
      updateFirestore, saveToFirestore, getFirestoreAccessToken, applyPatch,
      storeInsert, initialDoc]

theorem data_toBase64Url (s : String) :
    (toBase64Url s).data = toBase64UrlChars (s.data.map Char.toNat) := rfl

theorem data_arrayBufferToBase64Url (bytes : List Nat) :
    (arrayBufferToBase64Url bytes).data = toBase64UrlChars bytes := rfl

/-- C8: the compact token assembled before the exchange step is
base64url(header) dot base64url(claims) dot base64url(signature) with no
padding characters; the header is alg RS256 / typ JWT, and the claim set
carries the issuer, the datastore scope, the token-endpoint audience,
issued-at now and expiry now + 3600 seconds. -/
theorem claim_c8_jwt_shape (clientEmail : String) (now : Int) (sig : List Nat) :
    signedJWT clientEmail now sig
        = toBase64Url (stringifyHeader header) ++ "." ++
            toBase64Url (stringifyClaims (claimSet clientEmail now)) ++ "." ++
            arrayBufferToBase64Url sig
      ∧ (∀ c ∈ (signedJWT clientEmail now sig).data, c ≠ '=')
      ∧ header.alg = "RS256" ∧ header.typ = "JWT"
      ∧ (claimSet clientEmail now).iss = clientEmail
      ∧ (claimSet clientEmail now).scope = "https://www.googleapis.com/auth/datastore"
      ∧ (claimSet clientEmail now).aud = "https://oauth2.googleapis.com/token"
      ∧ (claimSet clientEmail now).iat = now
      ∧ (claimSet clientEmail now).exp = (claimSet clientEmail now).iat + 3600 := by
  refine ⟨?_, ?_, rfl, rfl, rfl, rfl, rfl, rfl, rfl⟩
  · simp only [signedJWT, unsignedJWT]
  · intro c hc
    simp only [signedJWT, unsignedJWT, String.data_append, data_toBase64Url,
      data_arrayBufferToBase64Url] at hc
    rcases List.mem_append.mp hc with hc1 | hcSig
    · rcases List.mem_append.mp hc1 with hc2 | hdotA
      · rcases List.mem_append.mp hc2 with hc3 | hcC
        · rcases List.mem_append.mp hc3 with hcH | hdotB
          · exact toBase64UrlChars_no_pad _ c hcH
          · simp only [List.mem_singleton] at hdotB
            subst hdotB
            decide
        · exact toBase64UrlChars_no_pad _ c hcC
      · simp only [List.mem_singleton] at hdotA
        subst hdotA
        decide
    · exact toBase64UrlChars_no_pad _ c hcSig

end ItinGen
